import Mathlib

/-!
Verification of the libmobile embedded stub DNS resolver (dns.c).

The C source is embedded shallowly: the resolver state struct becomes a
Lean structure over `Nat`-valued bytes, byte arrays become `List Nat`
indexed through `byteAt` (reads that C guards by `buffer_len` stay inside
the modelled list in every code path reached by the theorems), and the
unbounded pointer-chasing loop of `dns_compare_name` is given an explicit
fuel parameter, `none` meaning the loop has not terminated within the
given fuel.  Functions keep their C names.

The struct and address definitions live in headers (`dns.h`, `data.h`,
`mobile.h`) that are not part of the sources at hand; the field widths and
the address record are modelled from the specification and marked as such.
-/

namespace LibmobileDns

def DNS_HEADER_SIZE : Nat := 12
def DNS_QD_SIZE : Nat := 4
def DNS_RR_SIZE : Nat := 10
def DNS_PORT : Nat := 53

def DNS_QTYPE_A : Nat := 1
def DNS_QTYPE_AAAA : Nat := 28

/-- Modelled from the spec: `MOBILE_DNS_MAX_NAME_SIZE`, the fixed maximum
size of the encoded-name buffer (`data.h` is not among the sources; the
spec only states the name is "bounded by a fixed maximum"). -/
def MOBILE_DNS_MAX_NAME_SIZE : Nat := 256

/-- Modelled from the spec: `MOBILE_DNS_PACKET_SIZE`, the fixed maximum
wire-buffer size ("bounded by a fixed maximum packet size"). -/
def MOBILE_DNS_PACKET_SIZE : Nat := 512

/-- The resolver state `struct mobile_adapter_dns`.  Field widths are
modelled from the spec: `id` is the 16-bit transaction id (kept `< 2^16`
by `dns_make_query`'s wrapping increment), `type` the requested record
type, `name`/`name_len` the wire-encoded hostname, `buffer`/`buffer_len`
the shared wire buffer. -/
structure MobileAdapterDns where
  id : Nat
  type : Nat
  name : List Nat
  name_len : Nat
  buffer : List Nat
  buffer_len : Nat
deriving DecidableEq

/-- Read one byte of a modelled byte array (C array indexing). -/
def byteAt (l : List Nat) (i : Nat) : Nat := l.getD i 0

/-- Loop body of `dns_make_name`.  `out` is the prefix of the name buffer
written so far (so the C write cursor `d` sits at index `out.length`) and
`lenIdx` is the index of the current label's length byte (the C pointer
`len`).  Returns `none` where the C code returns `false`. -/
def dnsMakeNameLoop : List Nat → List Nat → Nat → Option (List Nat)
  | [], out, _ => some (out ++ [0])
  | c :: cs, out, lenIdx =>
    if MOBILE_DNS_MAX_NAME_SIZE - 1 ≤ out.length then none
    else if c = 46 then dnsMakeNameLoop cs (out ++ [0]) out.length
    else if 63 ≤ out.getD lenIdx 0 then none
    else dnsMakeNameLoop cs ((out.set lenIdx (out.getD lenIdx 0 + 1)) ++ [c]) lenIdx

/-- `dns_make_name`: wire-encode the dotted hostname `host` into the
state's `name` buffer as length-prefixed labels plus a zero terminator.
The C code starts with `*len = 0` at index 0 and the write cursor at
index 1, i.e. `out = [0]`, `lenIdx = 0`. -/
def dns_make_name (s : MobileAdapterDns) (host : List Nat) :
    Option MobileAdapterDns :=
  (dnsMakeNameLoop host [0] 0).map fun out =>
    { s with name := out, name_len := out.length }

/-- Outcome of one `dns_compare_name` call, separating the three return
shapes of the C function: `err` is `return -1`; `zeroNoUpdate` is a
`return 0` that does not write back `*offset` (the entry guards and the
invalid label-tag arm); `ok e` is the `return 0` after the loop, with
`*offset = e`. -/
inductive CmpOutcome where
  | err : CmpOutcome
  | zeroNoUpdate : CmpOutcome
  | ok : Nat → CmpOutcome
deriving DecidableEq

/-- Compare `len` bytes of `buf` starting at `i` with `nm` starting at
`j` (the C `while (len--) if (*cmp++ != *name++) return -1;`). -/
def bytesEq (buf nm : List Nat) (i j len : Nat) : Bool :=
  (List.range len).all fun k => byteAt buf (i + k) == byteAt nm (j + k)

/-- The `for (;;)` loop of `dns_compare_name`.  `cmp` is the read cursor
into `s.buffer`, `ni` the cursor into `s.name`, `endv` the C variable
`end` (`none` for the initial `-1`), `fuel` bounds the number of loop
iterations: the C loop has no such bound, so `none` models an execution
that has not returned within `fuel` steps. -/
def dnsCompareNameAux (s : MobileAdapterDns) :
    Nat → Nat → Option Nat → Nat → Option CmpOutcome
  | _, _, _, 0 => none
  | cmp, ni, endv, fuel + 1 =>
    let b := byteAt s.buffer cmp
    if b = 0 then
      -- loop break, then the post-loop `if (*cmp != 0 || *name != 0)`
      if b ≠ 0 ∨ byteAt s.name ni ≠ 0 then some .err
      else some (.ok (endv.getD (cmp + 1)))
    else if b / 64 = 3 then
      -- compression pointer (RFC1035 section 4.1.4)
      if s.buffer_len < cmp + 2 then some .err
      else
        let endv' := some (endv.getD (cmp + 2))
        let off := (b % 64) * 256 + byteAt s.buffer (cmp + 1)
        if s.buffer_len ≤ off then some .err
        else dnsCompareNameAux s off ni endv' fuel
    else if b / 64 = 0 then
      -- literal label of `b` bytes, compared including its length byte
      let len := b + 1
      if s.name_len ≤ ni + len then some .err
      else if s.buffer_len ≤ cmp + len then some .err
      else if bytesEq s.buffer s.name cmp ni len then
        dnsCompareNameAux s (cmp + len) (ni + len) endv fuel
      else some .err
    else some .zeroNoUpdate

/-- `dns_compare_name`: walk the wire name at `offset` in the receive
buffer against the stored query name, following compression pointers.
Returns the C `(return value, *offset)` pair; `*offset` is written back
only on the post-loop success path. -/
def dns_compare_name (s : MobileAdapterDns) (offset : Nat) (fuel : Nat) :
    Option (Int × Nat) :=
  if s.buffer_len ≤ offset then some (0, offset)
  else if s.name_len = 0 then some (0, offset)
  else
    match dnsCompareNameAux s offset 0 none fuel with
    | none => none
    | some .err => some (-1, offset)
    | some .zeroNoUpdate => some (0, offset)
    | some (.ok e) => some (0, e)

/-- `dns_make_query`: bump the transaction id (16-bit wrap, width
modelled from the spec), store the query type, and build the outgoing
datagram: 12-byte header, the encoded name, 4-byte QTYPE/QCLASS trailer.
The C function always returns `true`, so the new state is returned
directly. -/
def dns_make_query (s : MobileAdapterDns) (type : Nat) : MobileAdapterDns :=
  let id := (s.id + 1) % 65536
  let header : List Nat :=
    [id / 256 % 256, id % 256, 1, 0, 0, 1, 0, 0, 0, 0, 0, 0]
  let question : List Nat := [type / 256 % 256, type % 256, 0, 1]
  { s with
    id := id
    type := type
    buffer := header ++ s.name.take s.name_len ++ question
    buffer_len := DNS_HEADER_SIZE + s.name_len + DNS_QD_SIZE }

/-- `dns_verify_response`: check header length, id, flags, counts and the
question section.  Returns the C `(return value, *offset)` pair; the
offset component is meaningful only on the non-negative (ancount) result,
mirroring the C out-parameter that is written from `DNS_HEADER_SIZE`
onward. -/
def dns_verify_response (s : MobileAdapterDns) (fuel : Nat) :
    Option (Int × Nat) :=
  if s.buffer_len < DNS_HEADER_SIZE then some (-1, 0)
  else if byteAt s.buffer 0 * 256 + byteAt s.buffer 1 ≠ s.id then
    some (-1, 0)
  else
    let flags := byteAt s.buffer 2 * 256 + byteAt s.buffer 3
    if Nat.land flags 0xFBFF ≠ 0x8180 then
      some (-2 - (flags % 16 : Nat), 0)
    else
      let qdcount := byteAt s.buffer 4 * 256 + byteAt s.buffer 5
      let ancount := byteAt s.buffer 6 * 256 + byteAt s.buffer 7
      if qdcount ≠ 1 then some (-18, 0)
      else if ancount < 1 then some (-18, 0)
      else
        match dns_compare_name s DNS_HEADER_SIZE fuel with
        | none => none
        | some (cmp, off) =>
          if cmp ≠ 0 ∨ s.buffer_len < off + DNS_QD_SIZE then some (-19, off)
          else if byteAt s.buffer off * 256 + byteAt s.buffer (off + 1)
              ≠ s.type then some (-19, off)
          else if byteAt s.buffer (off + 2) * 256 + byteAt s.buffer (off + 3)
              ≠ 1 then some (-19, off)
          else some ((ancount : Int), off + DNS_QD_SIZE)

/-- Outcome of one `dns_get_answer` call: `hardFail` is `return -1`
(record info block or RDATA span out of buffer bounds), `skip o` is
`return -2` with `*offset` advanced to `o` (record rejected by the answer
filter), `accept rdata o` is the success return of the RDATA position
with `*offset` advanced to `o`. -/
inductive AnswerResult where
  | hardFail : AnswerResult
  | skip : Nat → AnswerResult
  | accept : Nat → Nat → AnswerResult
deriving DecidableEq

/-- `dns_get_answer`: parse one answer record at `offset`: walk its name,
bounds-check the 10-byte info block and the declared RDATA span, then
apply the answer filter (name matched, type equals the query type, class
IN, RDLENGTH 4 for A / 16 for AAAA). -/
def dns_get_answer (s : MobileAdapterDns) (offset : Nat) (fuel : Nat) :
    Option AnswerResult :=
  match dns_compare_name s offset fuel with
  | none => none
  | some (name_cmp, off1) =>
    if s.buffer_len < off1 + DNS_RR_SIZE then some .hardFail
    else
      let rdlength := byteAt s.buffer (off1 + 8) * 256 + byteAt s.buffer (off1 + 9)
      let rdata := off1 + DNS_RR_SIZE
      if s.buffer_len < off1 + DNS_RR_SIZE + rdlength then some .hardFail
      else
        let off2 := off1 + DNS_RR_SIZE + rdlength
        if name_cmp ≠ 0 then some (.skip off2)
        else if byteAt s.buffer off1 * 256 + byteAt s.buffer (off1 + 1)
            ≠ s.type then some (.skip off2)
        else if byteAt s.buffer (off1 + 2) * 256 + byteAt s.buffer (off1 + 3)
            ≠ 1 then some (.skip off2)
        else if s.type = DNS_QTYPE_A ∧ rdlength ≠ 4 then some (.skip off2)
        else if s.type = DNS_QTYPE_AAAA ∧ rdlength ≠ 16 then some (.skip off2)
        else some (.accept rdata off2)

/-- `mobile_dns_init`: reset the transaction id. -/
def mobile_dns_init (s : MobileAdapterDns) : MobileAdapterDns :=
  { s with id := 0 }

/-- Modelled from the spec: the address type tag of `struct mobile_addr`
(`mobile.h` is not among the sources).  Only the IPv4 case is used by the
resolver; `other` stands for any non-IPv4 tag. -/
inductive MobileAddrType where
  | ipv4 : MobileAddrType
  | other : MobileAddrType
deriving DecidableEq

/-- Modelled from the spec: `struct mobile_addr4` — address type tag,
port, and 4-byte IPv4 host.  The C `memcmp` over the whole struct is
modelled as equality of all fields. -/
structure MobileAddr4 where
  type : MobileAddrType
  port : Nat
  host : List Nat
deriving DecidableEq

/-- The `addr_send` value both `mobile_dns_query_send` and
`mobile_dns_query_recv` build: IPv4, port 53, host copied from the
configured resolver address `dns1`. -/
def dnsAddrSend (dns1 : List Nat) : MobileAddr4 :=
  { type := .ipv4, port := DNS_PORT, host := dns1 }

/-- Result of the board's `sock_recv` callback as the resolver consumes
it: `error` is a negative return, `empty` a zero return (no datagram
yet), `data bytes sender` a received datagram with its sender address. -/
inductive RecvOutcome where
  | error : RecvOutcome
  | empty : RecvOutcome
  | data : List Nat → MobileAddr4 → RecvOutcome

/-- The `memcpy(ip, state->buffer + anoffset, 4)` of
`mobile_dns_query_recv`: overwrite the first 4 bytes of the caller's `ip`
buffer with the accepted record's RDATA, leaving the rest untouched. -/
def copyIp4 (ip : List Nat) (s : MobileAdapterDns) (anoffset : Nat) :
    List Nat :=
  [byteAt s.buffer anoffset, byteAt s.buffer (anoffset + 1),
   byteAt s.buffer (anoffset + 2), byteAt s.buffer (anoffset + 3)]
    ++ ip.drop 4

/-- The `while (ancount--)` answer scan of `mobile_dns_query_recv`.
Returns the C return value paired with the caller's `ip` buffer after the
scan; `none` propagates fuel exhaustion of the name walk. -/
def mobileDnsAnswerScan (s : MobileAdapterDns) :
    Nat → Nat → List Nat → Nat → Option (Int × List Nat)
  | 0, _, ip, _ => some (1, ip)
  | ancount + 1, offset, ip, fuel =>
    match dns_get_answer s offset fuel with
    | none => none
    | some .hardFail => some (-1, ip)
    | some (.skip off') => mobileDnsAnswerScan s ancount off' ip fuel
    | some (.accept anoffset _) => some (1, copyIp4 ip s anoffset)

/-- `mobile_dns_query_send`: encode the hostname, build the query (always
with `DNS_QTYPE_A`), and hand the wire buffer to `sock_send`.  The model
returns the mutated resolver state together with the datagram bytes given
to the board; `sendOk` is the board's send result (on `false` the C code
closes the socket and reports failure, but the state mutations remain). -/
def mobile_dns_query_send (s : MobileAdapterDns) (host : List Nat)
    (sendOk : Bool) :
    Option (MobileAdapterDns × List Nat) × MobileAdapterDns :=
  match dns_make_name s host with
  | none => (none, s)
  | some s1 =>
    let s2 := dns_make_query s1 DNS_QTYPE_A
    if sendOk then (some (s2, s2.buffer), s2) else (none, s2)

/-- `mobile_dns_query_recv`: poll one datagram, overwrite the shared wire
buffer with it, discard it (pending, result `0`) when the sender is not
exactly the configured resolver, otherwise validate the response and scan
its answer records.  Returns the C return value (`-1` error, `0` pending,
`1` success) with the resolver state and the caller's `ip` buffer after
the call; `none` propagates fuel exhaustion of the name walk. -/
def mobile_dns_query_recv (s : MobileAdapterDns) (dns1 : List Nat)
    (recv : RecvOutcome) (ip : List Nat) (fuel : Nat) :
    Option (Int × MobileAdapterDns × List Nat) :=
  match recv with
  | .error => some (-1, s, ip)
  | .empty => some (0, s, ip)
  | .data bytes sender =>
    let s' := { s with buffer := bytes, buffer_len := bytes.length }
    if sender.type ≠ (dnsAddrSend dns1).type then some (0, s', ip)
    else if sender ≠ dnsAddrSend dns1 then some (0, s', ip)
    else
      match dns_verify_response s' fuel with
      | none => none
      | some (ancount, offset) =>
        if ancount < 0 then some (-1, s', ip)
        else
          match mobileDnsAnswerScan s' ancount.toNat offset ip fuel with
          | none => none
          | some (r, ip') => some (r, s', ip')

/-- Split a dotted hostname (as a byte list) into its labels, the way
`dns_make_name` delimits them on `.` (byte 46).  Used to state which
inputs the encoder accepts. -/
def labelsOf : List Nat → List (List Nat)
  | [] => [[]]
  | c :: cs =>
    let ls := labelsOf cs
    if c = 46 then [] :: ls
    else (c :: ls.headD []) :: ls.tail

/-- A freshly initialised resolver state (all fields zero/empty). -/
def dnsState0 : MobileAdapterDns :=
  { id := 0, type := 0, name := [], name_len := 0, buffer := [], buffer_len := 0 }

/-- The resolver state right after `mobile_dns_query_send` for the
hostname "a" from the freshly initialised state: id 1, type A, name
`[1, 'a', 0]`, and the outgoing query datagram in the wire buffer. -/
def dnsStateSent : MobileAdapterDns :=
  { id := 1, type := 1, name := [1, 97, 0], name_len := 3,
    buffer := [0, 1, 1, 0, 0, 1, 0, 0, 0, 0, 0, 0, 1, 97, 0, 0, 1, 0, 1],
    buffer_len := 19 }

/-- A structurally valid response datagram for the query of
`dnsStateSent` (id 1, flags 0x8180, qdcount 1, ancount 1, matching
question section) whose single answer record is a CNAME (type 5,
RDLENGTH 1): no record passes the answer filter. -/
def dnsCnameDatagram : List Nat :=
  [0, 1, 0x81, 0x80, 0, 1, 0, 1, 0, 0, 0, 0]
    ++ [1, 97, 0, 0, 1, 0, 1]
    ++ [0xC0, 12, 0, 5, 0, 1, 0, 0, 0, 0, 0, 1, 99]

/-- `dnsStateSent` after `mobile_dns_query_recv` has overwritten the wire
buffer with `dnsCnameDatagram` (32 bytes). -/
def dnsCnameState : MobileAdapterDns :=
  { dnsStateSent with buffer := dnsCnameDatagram, buffer_len := 32 }

/-- A resolver state whose receive buffer is the minimal compression
pointer cycle: the 2-byte pointer at offset 0 points back to offset 0. -/
def dnsCycleState : MobileAdapterDns :=
  { id := 1, type := 1, name := [1, 97, 0], name_len := 3,
    buffer := [0xC0, 0], buffer_len := 2 }

/-- A resolver state holding a received response whose flags field is
0x8181 (RCODE 1, format error) for the outstanding id 1. -/
def dnsBadFlagsState : MobileAdapterDns :=
  { dnsStateSent with
    buffer := [0, 1, 0x81, 0x81, 0, 1, 0, 1, 0, 0, 0, 0],
    buffer_len := 12 }

/-- One step of the cycle: from cursor 0 with `end` already recorded, the
name walk of `dnsCycleState` returns to cursor 0 with the same arguments,
so every amount of fuel is exhausted. -/
lemma dnsCompareNameAux_cycle (ni : Nat) :
    ∀ fuel, dnsCompareNameAux dnsCycleState 0 ni (some 2) fuel = none := by
  intro fuel
  induction fuel with
  | zero => rfl
  | succ n ih =>
    rw [dnsCompareNameAux]
    simp only [dnsCycleState, byteAt, List.getD]
    norm_num
    exact ih

/-- C2: the claim states that `dns_compare_name` terminates with a bounded
reported failure on a compression-pointer cycle.  The code has no hop
bound: on the self-pointing 2-byte pointer `[0xC0, 0x00]` the walk re-reads
offset 0 forever — for every fuel value the model reports fuel exhaustion
(`none`), i.e. the C loop never returns.  This refutes the claim for the
code as written and matches the spec's own note that the missing hop
ceiling is a correctness gap in the reference behavior. -/
theorem c2_pointer_cycle_never_terminates (fuel : Nat) :
    dns_compare_name dnsCycleState 0 fuel = none := by
  rw [dns_compare_name]
  have h : dnsCompareNameAux dnsCycleState 0 0 none fuel = none := by
    cases fuel with
    | zero => rfl
    | succ n =>
      rw [dnsCompareNameAux]
      simp only [dnsCycleState, byteAt, List.getD]
      norm_num
      exact dnsCompareNameAux_cycle 0 n
  rw [h]
  rfl

/-- C1: a structurally valid response whose only answer record fails the
answer filter (a CNAME) makes `mobile_dns_query_recv` return 1 (success)
while leaving the caller's `ip` buffer untouched — the code does not
report the terminal failure the claim (and the spec's error taxonomy)
require for a response with no matching answer. -/
theorem c1_unmatched_answers_return_success :
    mobile_dns_query_recv dnsStateSent [10, 0, 0, 1]
        (.data dnsCnameDatagram (dnsAddrSend [10, 0, 0, 1])) [9, 9, 9, 9] 100
      = some (1, dnsCnameState, [9, 9, 9, 9]) := by
  decide

/-- The label list of any hostname is nonempty: it decomposes into head
label and tail labels. -/
lemma labelsOf_decomp (cs : List Nat) :
    labelsOf cs = (labelsOf cs).headD [] :: (labelsOf cs).tail := by
  cases cs with
  | nil => rfl
  | cons c cs' =>
    rw [labelsOf]
    split <;> simp

/-- Reading back the byte just written by `List.set`. -/
lemma getD_set_self (l : List Nat) (n v d : Nat) (h : n < l.length) :
    (l.set n v).getD n d = v := by
  simp [List.getD, List.getElem?_set_self', h]

/-- Exact success condition of the `dns_make_name` loop: the current
label (continued from the running length byte) and all later labels must
stay within 63 bytes, and the output cursor must stay below the name
buffer's maximum. -/
lemma dnsMakeNameLoop_isSome_iff (cs : List Nat) :
    ∀ (out : List Nat) (lenIdx : Nat), lenIdx < out.length →
      out.getD lenIdx 0 ≤ 63 →
      ((dnsMakeNameLoop cs out lenIdx).isSome ↔
        (out.getD lenIdx 0 + ((labelsOf cs).headD []).length ≤ 63
          ∧ (∀ l ∈ (labelsOf cs).tail, l.length ≤ 63)
          ∧ (cs = [] ∨ out.length + cs.length < MOBILE_DNS_MAX_NAME_SIZE))) := by
  have hM : MOBILE_DNS_MAX_NAME_SIZE = 256 := rfl
  induction cs with
  | nil =>
    intro out lenIdx hIdx hCur
    simp only [dnsMakeNameLoop, labelsOf, Option.isSome_some, true_iff]
    refine ⟨by simpa using hCur, by simp, by simp⟩
  | cons c cs' ih =>
    intro out lenIdx hIdx hCur
    rw [dnsMakeNameLoop]
    rcases le_or_lt (MOBILE_DNS_MAX_NAME_SIZE - 1) out.length with hmax | hmax
    · rw [if_pos hmax]
      simp only [Option.isSome_none, Bool.false_eq_true, false_iff]
      rintro ⟨-, -, h3⟩
      rcases h3 with h3 | h3
      · exact absurd h3 (List.cons_ne_nil c cs')
      · simp only [List.length_cons] at h3; omega
    · rw [if_neg (not_le.mpr hmax)]
      by_cases hdot : c = 46
      · rw [if_pos hdot]
        have hIdx' : out.length < (out ++ [0]).length := by simp
        have hCur' : (out ++ [0]).getD out.length 0 ≤ 63 := by
          rw [List.getD_append_right out [0] 0 out.length le_rfl]; simp
        rw [ih (out ++ [0]) out.length hIdx' hCur']
        have hget : (out ++ [0]).getD out.length 0 = 0 := by
          rw [List.getD_append_right out [0] 0 out.length le_rfl]; simp
        rw [hget]
        obtain ⟨h0, t, hL⟩ : ∃ h0 t, labelsOf cs' = h0 :: t :=
          ⟨_, _, labelsOf_decomp cs'⟩
        have hLc : labelsOf (c :: cs') = [] :: h0 :: t := by
          rw [labelsOf, hL, if_pos hdot]
        simp only [hL, hLc, List.headD_cons, List.tail_cons, List.length_append,
          List.length_cons, List.forall_mem_cons, List.length_nil]
        constructor
        · rintro ⟨h1, h2, h3⟩
          refine ⟨by omega, ⟨by omega, h2⟩, Or.inr ?_⟩
          rcases h3 with rfl | h3
          · simp only [List.length_nil]; omega
          · omega
        · rintro ⟨h1, ⟨h2a, h2b⟩, h3⟩
          refine ⟨by omega, h2b, ?_⟩
          rcases h3 with h3 | h3
          · exact absurd h3 (List.cons_ne_nil c cs')
          · right; omega
      · rw [if_neg hdot]
        rcases le_or_lt 63 (out.getD lenIdx 0) with hbig | hbig
        · rw [if_pos hbig]
          simp only [Option.isSome_none, Bool.false_eq_true, false_iff]
          rintro ⟨h1, -, -⟩
          obtain ⟨h0, t, hL⟩ : ∃ h0 t, labelsOf cs' = h0 :: t :=
            ⟨_, _, labelsOf_decomp cs'⟩
          have hLc : labelsOf (c :: cs') = (c :: h0) :: t := by
            rw [labelsOf, hL, if_neg hdot]; simp
          rw [hLc] at h1
          simp only [List.headD_cons, List.length_cons] at h1
          omega
        · rw [if_neg (not_le.mpr hbig)]
          have hsetlen : (out.set lenIdx (out.getD lenIdx 0 + 1)).length
              = out.length := List.length_set out lenIdx _
          have hIdx' : lenIdx
              < ((out.set lenIdx (out.getD lenIdx 0 + 1)) ++ [c]).length := by
            simp only [List.length_append, hsetlen]; omega
          have hget' : ((out.set lenIdx (out.getD lenIdx 0 + 1)) ++ [c]).getD
              lenIdx 0 = out.getD lenIdx 0 + 1 := by
            rw [List.getD_append _ _ _ _ (by rw [hsetlen]; exact hIdx)]
            exact getD_set_self out lenIdx _ 0 hIdx
          have hCur' : ((out.set lenIdx (out.getD lenIdx 0 + 1)) ++ [c]).getD
              lenIdx 0 ≤ 63 := by rw [hget']; omega
          rw [ih _ lenIdx hIdx' hCur', hget']
          obtain ⟨h0, t, hL⟩ : ∃ h0 t, labelsOf cs' = h0 :: t :=
            ⟨_, _, labelsOf_decomp cs'⟩
          have hLc : labelsOf (c :: cs') = (c :: h0) :: t := by
            rw [labelsOf, hL, if_neg hdot]; simp
          simp only [hL, hLc, List.headD_cons, List.tail_cons,
            List.length_append, List.length_cons, hsetlen, List.length_nil]
          constructor
          · rintro ⟨h1, h2, h3⟩
            refine ⟨by omega, h2, Or.inr ?_⟩
            rcases h3 with rfl | h3
            · simp only [List.length_nil]; omega
            · omega
          · rintro ⟨h1, h2, h3⟩
            refine ⟨by omega, h2, ?_⟩
            rcases h3 with h3 | h3
            · exact absurd h3 (List.cons_ne_nil c cs')
            · right; omega

/-- C4 counterexample: the encoder does not reject empty or malformed
input.  The empty hostname is accepted (encoded `[0, 0]`), and a hostname
with an empty label ("a..b") is accepted too, silently embedding a
zero-length label byte; the claim states both must return failure. -/
theorem c4_empty_input_encoded_not_rejected :
    dns_make_name dnsState0 [] = some { dnsState0 with name := [0, 0], name_len := 2 }
      ∧ dns_make_name dnsState0 [97, 46, 46, 98]
        = some { dnsState0 with name := [1, 97, 0, 1, 98, 0], name_len := 6 } := by
  exact ⟨rfl, rfl⟩

/-- C4 amended: `dns_make_name` succeeds exactly when every label of the
input is at most 63 bytes and the encoded form (input length plus leading
length byte plus terminator) fits the maximum name buffer; in particular
it fails whenever a label exceeds 63 bytes or the encoding would
overflow, but empty and empty-label hostnames are accepted, not
rejected. -/
theorem c4_make_name_success_characterization
    (s : MobileAdapterDns) (host : List Nat) :
    (dns_make_name s host).isSome ↔
      ((∀ l ∈ labelsOf host, l.length ≤ 63)
        ∧ host.length + 2 ≤ MOBILE_DNS_MAX_NAME_SIZE) := by
  have hM : MOBILE_DNS_MAX_NAME_SIZE = 256 := rfl
  rw [dns_make_name, Option.isSome_map']
  rw [dnsMakeNameLoop_isSome_iff host [0] 0 (by simp) (by simp)]
  obtain ⟨h0, t, hL⟩ : ∃ h0 t, labelsOf host = h0 :: t :=
    ⟨_, _, labelsOf_decomp host⟩
  simp only [hL, List.headD_cons, List.tail_cons, List.forall_mem_cons,
    List.length_cons, List.length_singleton]
  constructor
  · rintro ⟨h1, h2, h3⟩
    refine ⟨⟨by simpa using h1, h2⟩, ?_⟩
    rcases h3 with rfl | h3
    · simp only [List.length_nil]; omega
    · simp only [List.length_cons, List.length_nil] at h3; omega
  · rintro ⟨⟨h1, h2⟩, h3⟩
    refine ⟨by simpa using h1, h2, ?_⟩
    rcases eq_or_ne host [] with rfl | hne
    · exact Or.inl rfl
    · right; simp only [List.length_cons, List.length_nil]; omega

/-- C5: the query id is bumped with a 16-bit wrap on every build (the id
field width is modelled from the spec), so the wire ids of two
consecutive queries differ, 0xFFFF wraps to 0x0000, and a response
carrying the wrapped id still passes `dns_verify_response`'s id check
(its result is never the id-mismatch/short-header error `-1`). -/
theorem c5_query_id_wraps_and_correlates
    (s : MobileAdapterDns) (t1 t2 : Nat) (h : s.id < 65536) :
    (dns_make_query s t1).id = (s.id + 1) % 65536
    ∧ (dns_make_query s t1).id ≠ (dns_make_query (dns_make_query s t1) t2).id
    ∧ (byteAt (dns_make_query s t1).buffer 0, byteAt (dns_make_query s t1).buffer 1)
        ≠ (byteAt (dns_make_query (dns_make_query s t1) t2).buffer 0,
           byteAt (dns_make_query (dns_make_query s t1) t2).buffer 1)
    ∧ (s.id = 65535 → (dns_make_query s t1).id = 0)
    ∧ (∀ (buf : List Nat) (bl fuel : Nat) (r : Int × Nat),
        DNS_HEADER_SIZE ≤ bl →
        byteAt buf 0 = (dns_make_query s t1).id / 256 →
        byteAt buf 1 = (dns_make_query s t1).id % 256 →
        dns_verify_response
          { dns_make_query s t1 with buffer := buf, buffer_len := bl } fuel
          = some r →
        r.1 ≠ -1) := by
  refine ⟨rfl, ?_, ?_, by intro h15; simp [dns_make_query, h15], ?_⟩
  · simp only [dns_make_query]
    omega
  · simp only [dns_make_query, byteAt, List.cons_append, List.nil_append,
      List.getD_cons_zero, List.getD_cons_succ, Prod.mk.injEq, ne_eq, not_and]
    intro h0 h1
    omega
  · intro buf bl fuel r hbl h0 h1 hver
    rw [dns_verify_response] at hver
    rw [if_neg (by simp only [DNS_HEADER_SIZE] at hbl ⊢; omega)] at hver
    rw [if_neg (by
      push_neg
      show byteAt buf 0 * 256 + byteAt buf 1 = (dns_make_query s t1).id
      rw [h0, h1]; omega)] at hver
    simp only [ne_eq] at hver
    cases hcmp : dns_compare_name
        { dns_make_query s t1 with buffer := buf, buffer_len := bl }
        DNS_HEADER_SIZE fuel with
    | none =>
      rw [hcmp] at hver
      split_ifs at hver
      all_goals
        first
        | (exfalso; revert hver; simp; done)
        | (rw [Option.some.injEq] at hver; subst hver; simp; try omega)
    | some p =>
      rcases p with ⟨cmp, off⟩
      rw [hcmp] at hver
      split_ifs at hver
      all_goals repeat' first | split_ifs at hver | split at hver
      all_goals
        first
        | (exfalso; revert hver; simp; done)
        | (rw [Option.some.injEq] at hver; subst hver; simp; try omega)

/-- Concrete instance of the id theorem: from id 0xFFFF, building a query
wraps the id to 0, and a 12-byte response carrying wire id 0 with flags 0
gets past the id check (it fails on flags with code -2, not with -1). -/
theorem c5_query_id_witness :
    (dns_make_query { dnsState0 with id := 65535 } DNS_QTYPE_A).id
        = (65535 + 1) % 65536
    ∧ ((-2 : Int), (0 : Nat)).1 ≠ (-1 : Int) := by
  refine ⟨(c5_query_id_wraps_and_correlates { dnsState0 with id := 65535 }
    DNS_QTYPE_A DNS_QTYPE_A (by decide)).1, ?_⟩
  exact (c5_query_id_wraps_and_correlates { dnsState0 with id := 65535 }
      DNS_QTYPE_A DNS_QTYPE_A (by decide)).2.2.2.2
    [0, 0, 0, 0, 0, 0, 0, 0, 0, 0, 0, 0] 12 1 (-2, 0)
    (by decide) (by decide) (by decide) (by decide)


/-- The don't-care mask 0xFBFF clears exactly the AA bit (bit 10): a
16-bit flags word passes the check `flags & 0xFBFF == 0x8180` exactly
when it is 0x8180 (QR|RD|RA) or 0x8580 (the same with AA set). -/
lemma land_fbff_eq_iff (f : Nat) (hf : f < 65536) :
    Nat.land f 0xFBFF = 0x8180 ↔ f = 0x8180 ∨ f = 0x8580 := by
  constructor
  · intro hl
    have hbit : ∀ i, (f.testBit i && (64511 : Nat).testBit i)
        = (33152 : Nat).testBit i := by
      intro i
      rw [← Nat.testBit_land]
      exact congrArg (fun n => n.testBit i) hl
    have h2i : ∀ i, 16 ≤ i → (65536 : Nat) ≤ 2 ^ i := by
      intro i hi
      calc (65536 : Nat) = 2 ^ 16 := by norm_num
        _ ≤ 2 ^ i := Nat.pow_le_pow_right (by norm_num) hi
    have hhi : ∀ i, 16 ≤ i → f.testBit i = false := fun i hi =>
      Nat.testBit_eq_false_of_lt (lt_of_lt_of_le hf (h2i i hi))
    have hmask : ∀ i, i < 16 → i ≠ 10 → (64511 : Nat).testBit i = true := by
      decide
    have hf' : ∀ i, i < 16 → i ≠ 10 →
        f.testBit i = (33152 : Nat).testBit i := by
      intro i hi hten
      have hb := hbit i
      rw [hmask i hi hten, Bool.and_true] at hb
      exact hb
    by_cases h10 : f.testBit 10
    · right
      apply Nat.eq_of_testBit_eq
      intro i
      by_cases hi : i < 16
      · by_cases hten : i = 10
        · subst hten
          rw [h10]; decide
        · rw [hf' i hi hten]
          exact (by decide :
            ∀ j, j < 16 → j ≠ 10 →
              (33152 : Nat).testBit j = (34176 : Nat).testBit j) i hi hten
      · rw [hhi i (le_of_not_lt hi)]
        exact (Nat.testBit_eq_false_of_lt (lt_of_lt_of_le (by norm_num)
          (h2i i (le_of_not_lt hi)))).symm
    · left
      apply Nat.eq_of_testBit_eq
      intro i
      by_cases hi : i < 16
      · by_cases hten : i = 10
        · subst hten
          rw [Bool.eq_false_iff.mpr h10]; decide
        · exact hf' i hi hten
      · rw [hhi i (le_of_not_lt hi)]
        exact (Nat.testBit_eq_false_of_lt (lt_of_lt_of_le (by norm_num)
          (h2i i (le_of_not_lt hi)))).symm
  · rintro (rfl | rfl) <;> decide

/-- C7: given a full header whose id matches, `dns_verify_response`
accepts the flags word iff, after masking the don't-care AA bit, it
equals the pattern 0x8180 (QR set, opcode 0, not truncated, RD and RA
set, zero-area clear, RCODE 0) — equivalently, iff the flags are exactly
0x8180 or 0x8580; any other flags value is rejected with the code
`-2 - RCODE`, which lies in [-17, -2] (a band no other rejection uses)
and distinguishes any two distinct RCODE values. -/
theorem c7_flags_validation
    (s : MobileAdapterDns) (fuel : Nat)
    (hlen : DNS_HEADER_SIZE ≤ s.buffer_len)
    (hid : byteAt s.buffer 0 * 256 + byteAt s.buffer 1 = s.id)
    (hb2 : byteAt s.buffer 2 < 256) (hb3 : byteAt s.buffer 3 < 256) :
    (Nat.land (byteAt s.buffer 2 * 256 + byteAt s.buffer 3) 0xFBFF ≠ 0x8180 →
      dns_verify_response s fuel
        = some ((-2 : Int)
            - ((byteAt s.buffer 2 * 256 + byteAt s.buffer 3) % 16 : Nat), 0))
    ∧ (Nat.land (byteAt s.buffer 2 * 256 + byteAt s.buffer 3) 0xFBFF = 0x8180 →
        ∀ r, dns_verify_response s fuel = some r → ¬(-17 ≤ r.1 ∧ r.1 ≤ -2))
    ∧ (Nat.land (byteAt s.buffer 2 * 256 + byteAt s.buffer 3) 0xFBFF = 0x8180
        ↔ byteAt s.buffer 2 * 256 + byteAt s.buffer 3 = 0x8180
          ∨ byteAt s.buffer 2 * 256 + byteAt s.buffer 3 = 0x8580)
    ∧ (∀ g1 g2 : Nat, g1 % 16 ≠ g2 % 16 →
        (-2 - (g1 % 16 : Nat) : Int) ≠ -2 - (g2 % 16 : Nat)) := by
  refine ⟨?_, ?_, land_fbff_eq_iff _ (by omega), by intro g1 g2 hg; omega⟩
  · intro hbad
    rw [dns_verify_response]
    rw [if_neg (by simp only [DNS_HEADER_SIZE] at hlen ⊢; omega)]
    rw [if_neg (by push_neg; exact hid)]
    simp only [ne_eq]
    rw [if_pos (by simpa using hbad)]
  · intro hgood r hver
    rw [dns_verify_response] at hver
    rw [if_neg (by simp only [DNS_HEADER_SIZE] at hlen ⊢; omega)] at hver
    rw [if_neg (by push_neg; exact hid)] at hver
    simp only [ne_eq] at hver
    rw [if_neg (by simpa using hgood)] at hver
    cases hcmp : dns_compare_name s DNS_HEADER_SIZE fuel with
    | none =>
      rw [hcmp] at hver
      split_ifs at hver
      all_goals
        first
        | (exfalso; revert hver; simp; done)
        | (rw [Option.some.injEq] at hver; subst hver; simp; try omega)
    | some p =>
      rcases p with ⟨cmp, off⟩
      rw [hcmp] at hver
      split_ifs at hver
      all_goals repeat' first | split_ifs at hver | split at hver
      all_goals
        first
        | (exfalso; revert hver; simp; done)
        | (rw [Option.some.injEq] at hver; subst hver; simp; try omega)

/-- Concrete instance of the flags theorem: a response with flags 0x8181
(RCODE 1) for the outstanding id is rejected with code -2 - 1 = -3. -/
theorem c7_flags_validation_witness :
    dns_verify_response dnsBadFlagsState 1 = some (-3, 0) := by
  have h := (c7_flags_validation dnsBadFlagsState 1 (by decide) (by decide)
    (by decide) (by decide)).1 (by decide)
  rw [h]
  decide

/-- Once the C variable `end` has been recorded (`endv = some e`), no
later loop step changes it: a successful walk reports exactly `e`. -/
lemma dnsCompareNameAux_some_end (s : MobileAdapterDns) :
    ∀ fuel cmp ni e o,
      dnsCompareNameAux s cmp ni (some e) fuel = some (.ok o) → o = e := by
  intro fuel
  induction fuel with
  | zero =>
    intro cmp ni e o h
    simp [dnsCompareNameAux] at h
  | succ n ih =>
    intro cmp ni e o h
    rw [dnsCompareNameAux] at h
    simp only [Option.getD_some] at h
    split_ifs at h
    all_goals
      first
      | (exact ih _ _ _ _ h)
      | (simp only [Option.some.injEq, CmpOutcome.ok.injEq] at h; omega)
      | simp at h

/-- C6: on a successful match, the offset `dns_compare_name` writes back
is the first compression pointer's position plus 2 when a pointer was
followed, and the position one past the terminating zero byte otherwise;
pointers after the first never change the reported end.  Stated on the
loop: once `end` is recorded every success reports it (1); the first
pointer records its own position + 2 while a later pointer leaves the
record unchanged (2); a literal label leaves the not-yet-recorded state
unchanged (3); ending on the zero byte with nothing recorded reports one
past it (4); and the wrapper returns code 0 with the loop's offset (5). -/
theorem c6_first_pointer_is_logical_end (s : MobileAdapterDns) :
    (∀ fuel cmp ni e o,
      dnsCompareNameAux s cmp ni (some e) fuel = some (.ok o) → o = e)
    ∧ (∀ fuel cmp ni,
        byteAt s.buffer cmp / 64 = 3 →
        cmp + 2 ≤ s.buffer_len →
        (byteAt s.buffer cmp % 64) * 256 + byteAt s.buffer (cmp + 1)
          < s.buffer_len →
        dnsCompareNameAux s cmp ni none (fuel + 1)
          = dnsCompareNameAux s
              ((byteAt s.buffer cmp % 64) * 256 + byteAt s.buffer (cmp + 1))
              ni (some (cmp + 2)) fuel
        ∧ ∀ e, dnsCompareNameAux s cmp ni (some e) (fuel + 1)
          = dnsCompareNameAux s
              ((byteAt s.buffer cmp % 64) * 256 + byteAt s.buffer (cmp + 1))
              ni (some e) fuel)
    ∧ (∀ fuel cmp ni,
        byteAt s.buffer cmp ≠ 0 →
        byteAt s.buffer cmp / 64 = 0 →
        ni + (byteAt s.buffer cmp + 1) < s.name_len →
        cmp + (byteAt s.buffer cmp + 1) < s.buffer_len →
        bytesEq s.buffer s.name cmp ni (byteAt s.buffer cmp + 1) = true →
        dnsCompareNameAux s cmp ni none (fuel + 1)
          = dnsCompareNameAux s (cmp + (byteAt s.buffer cmp + 1))
              (ni + (byteAt s.buffer cmp + 1)) none fuel)
    ∧ (∀ fuel cmp ni, byteAt s.buffer cmp = 0 → byteAt s.name ni = 0 →
        dnsCompareNameAux s cmp ni none (fuel + 1) = some (.ok (cmp + 1)))
    ∧ (∀ offset fuel e, offset < s.buffer_len → s.name_len ≠ 0 →
        dnsCompareNameAux s offset 0 none fuel = some (.ok e) →
        dns_compare_name s offset fuel = some (0, e)) := by
  refine ⟨dnsCompareNameAux_some_end s, ?_, ?_, ?_, ?_⟩
  · intro fuel cmp ni hdiv hb2 hoff
    have hb0 : ¬ byteAt s.buffer cmp = 0 := by omega
    constructor
    · rw [dnsCompareNameAux]
      simp only [if_neg hb0, hdiv, if_pos rfl, if_true, if_neg (not_lt.mpr hb2),
        if_neg (not_le.mpr hoff), Option.getD_none]
    · intro e
      rw [dnsCompareNameAux]
      simp only [if_neg hb0, hdiv, if_pos rfl, if_true, if_neg (not_lt.mpr hb2),
        if_neg (not_le.mpr hoff), Option.getD_some]
  · intro fuel cmp ni hb0 hdiv hname hbuf heq
    rw [dnsCompareNameAux]
    simp only [if_neg hb0, hdiv, if_pos rfl, if_true, if_neg (not_le.mpr hname),
      if_neg (not_le.mpr hbuf), heq]
    rw [if_neg (by decide : ¬((0 : Nat) = 3))]
  · intro fuel cmp ni hz hn
    rw [dnsCompareNameAux]
    simp only [hz, hn, if_pos rfl, if_true, ne_eq, not_true_eq_false, false_or,
      not_false_eq_true, if_false, Option.getD_none]
  · intro offset fuel e hoff hname haux
    rw [dns_compare_name, if_neg (not_le.mpr hoff), if_neg hname, haux]

/-- Concrete instance of the name-walk theorem: in the received query
buffer of `dnsStateSent`, the stored name's terminating zero at offset 14
ends the walk one past itself (offset 15) when no pointer was followed,
and a previously recorded end (7) is what a successful walk reports. -/
theorem c6_first_pointer_witness :
    dnsCompareNameAux dnsStateSent 14 2 none 1 = some (.ok 15)
    ∧ (7 : Nat) = 7 := by
  constructor
  · simpa using (c6_first_pointer_is_logical_end dnsStateSent).2.2.2.1
      0 14 2 (by decide) (by decide)
  · exact (c6_first_pointer_is_logical_end dnsStateSent).1 1 14 2 7 7 (by decide)

set_option maxRecDepth 4000 in
/-- C3: the answer-record scan.  Given the record's name walk result, the
record makes the whole response fail exactly when its 10-byte info block
or declared RDATA span exceeds the buffer; otherwise it is accepted
(RDATA position returned) iff the name walk returned 0, the type equals
the query type, the class is IN, and RDLENGTH is 4 for type A / 16 for
type AAAA, and skipped otherwise; and in the scan loop a hard failure
aborts with -1, a skipped record lets the scan continue at the next
record, and the first accepted record's 4 RDATA bytes are copied and the
scan stops. -/
theorem c3_answer_scan_filter
    (s : MobileAdapterDns) (off fuel : Nat) (c : Int) (off1 : Nat)
    (hcmp : dns_compare_name s off fuel = some (c, off1)) :
    ((s.buffer_len < off1 + DNS_RR_SIZE
        ∨ s.buffer_len < off1 + DNS_RR_SIZE
            + (byteAt s.buffer (off1 + 8) * 256 + byteAt s.buffer (off1 + 9))) →
      dns_get_answer s off fuel = some .hardFail)
    ∧ (off1 + DNS_RR_SIZE ≤ s.buffer_len →
       off1 + DNS_RR_SIZE
           + (byteAt s.buffer (off1 + 8) * 256 + byteAt s.buffer (off1 + 9))
         ≤ s.buffer_len →
       dns_get_answer s off fuel
         = some (if c = 0
              ∧ byteAt s.buffer off1 * 256 + byteAt s.buffer (off1 + 1) = s.type
              ∧ byteAt s.buffer (off1 + 2) * 256 + byteAt s.buffer (off1 + 3) = 1
              ∧ (s.type = DNS_QTYPE_A →
                  byteAt s.buffer (off1 + 8) * 256 + byteAt s.buffer (off1 + 9) = 4)
              ∧ (s.type = DNS_QTYPE_AAAA →
                  byteAt s.buffer (off1 + 8) * 256 + byteAt s.buffer (off1 + 9) = 16)
            then AnswerResult.accept (off1 + DNS_RR_SIZE)
                (off1 + DNS_RR_SIZE
                  + (byteAt s.buffer (off1 + 8) * 256 + byteAt s.buffer (off1 + 9)))
            else AnswerResult.skip
                (off1 + DNS_RR_SIZE
                  + (byteAt s.buffer (off1 + 8) * 256 + byteAt s.buffer (off1 + 9)))))
    ∧ (∀ n ip, dns_get_answer s off fuel = some .hardFail →
        mobileDnsAnswerScan s (n + 1) off ip fuel = some (-1, ip))
    ∧ (∀ n ip o, dns_get_answer s off fuel = some (.skip o) →
        mobileDnsAnswerScan s (n + 1) off ip fuel = mobileDnsAnswerScan s n o ip fuel)
    ∧ (∀ n ip a o, dns_get_answer s off fuel = some (.accept a o) →
        mobileDnsAnswerScan s (n + 1) off ip fuel = some (1, copyIp4 ip s a)) := by
  refine ⟨?_, ?_, ?_, ?_, ?_⟩
  · intro hb
    simp only [dns_get_answer, hcmp]
    rcases hb with hb | hb
    · rw [if_pos hb]
    · by_cases hb1 : s.buffer_len < off1 + DNS_RR_SIZE
      · rw [if_pos hb1]
      · rw [if_neg hb1, if_pos hb]
  · intro hb1 hb2
    simp only [dns_get_answer, hcmp]
    rw [if_neg (not_lt.mpr hb1), if_neg (not_lt.mpr hb2)]
    split_ifs <;> first | rfl | tauto
  · intro n ip h
    simp only [mobileDnsAnswerScan, h]
  · intro n ip o h
    simp only [mobileDnsAnswerScan, h]
  · intro n ip a o h
    simp only [mobileDnsAnswerScan, h]

/-- Concrete instance of the scan-filter theorem: the CNAME answer record
of `dnsCnameDatagram` (at offset 19, name walk succeeding with end 21) is
skipped with the offset advanced past it, and the scan loop continues
with the remaining count. -/
theorem c3_answer_scan_witness :
    dns_get_answer dnsCnameState 19 100 = some (.skip 32)
    ∧ mobileDnsAnswerScan dnsCnameState 1 19 [9, 9, 9, 9] 100
        = mobileDnsAnswerScan dnsCnameState 0 32 [9, 9, 9, 9] 100 := by
  have h := c3_answer_scan_filter dnsCnameState 19 100 0 21 (by decide)
  have hskip : dns_get_answer dnsCnameState 19 100 = some (.skip 32) := by
    have h2 := h.2.1 (by decide) (by decide)
    rw [h2]; decide
  exact ⟨hskip, h.2.2.2.1 0 [9, 9, 9, 9] 32 hskip⟩

/-- C8: a datagram whose sender is not exactly the configured resolver
address (type, port and host) makes `mobile_dns_query_recv` return the
pending result 0 — never an error — whatever the datagram contains; the
shared buffer has however been overwritten with the datagram. -/
theorem c8_sender_mismatch_is_pending
    (s : MobileAdapterDns) (dns1 bytes : List Nat) (sender : MobileAddr4)
    (ip : List Nat) (fuel : Nat) (h : sender ≠ dnsAddrSend dns1) :
    mobile_dns_query_recv s dns1 (.data bytes sender) ip fuel
      = some (0, { s with buffer := bytes, buffer_len := bytes.length }, ip) := by
  simp only [mobile_dns_query_recv]
  rcases eq_or_ne sender.type (dnsAddrSend dns1).type with ht | ht
  · rw [if_neg (by simp [ht]), if_pos h]
  · rw [if_pos ht]

/-- Concrete instance of the sender check: the valid CNAME response
datagram sent from the right host but port 54 is ignored as pending. -/
theorem c8_sender_mismatch_witness :
    mobile_dns_query_recv dnsStateSent [10, 0, 0, 1]
        (.data dnsCnameDatagram
          { type := .ipv4, port := 54, host := [10, 0, 0, 1] })
        [9, 9, 9, 9] 5
      = some (0, dnsCnameState, [9, 9, 9, 9]) := by
  rw [c8_sender_mismatch_is_pending dnsStateSent [10, 0, 0, 1] dnsCnameDatagram
    { type := .ipv4, port := 54, host := [10, 0, 0, 1] } [9, 9, 9, 9] 5
    (by decide)]
  decide

/-- C10: even when `mobile_dns_query_recv` returns pending (0) because
the sender address mismatches, the shared wire buffer and its length have
already been overwritten with the stray datagram; only `id`, `type`,
`name` and `name_len` (and the caller's `ip` buffer) are untouched. -/
theorem c10_stray_datagram_overwrites_buffer
    (s : MobileAdapterDns) (dns1 bytes : List Nat) (sender : MobileAddr4)
    (ip : List Nat) (fuel : Nat) (r : Int) (s' : MobileAdapterDns)
    (ip' : List Nat)
    (hmis : sender ≠ dnsAddrSend dns1)
    (h : mobile_dns_query_recv s dns1 (.data bytes sender) ip fuel
      = some (r, s', ip')) :
    r = 0 ∧ s'.buffer = bytes ∧ s'.buffer_len = bytes.length
    ∧ s'.id = s.id ∧ s'.type = s.type
    ∧ s'.name = s.name ∧ s'.name_len = s.name_len ∧ ip' = ip := by
  have hrec : mobile_dns_query_recv s dns1 (.data bytes sender) ip fuel
      = some (0, { s with buffer := bytes, buffer_len := bytes.length }, ip) := by
    simp only [mobile_dns_query_recv]
    rcases eq_or_ne sender.type (dnsAddrSend dns1).type with ht | ht
    · rw [if_neg (by simp [ht]), if_pos hmis]
    · rw [if_pos ht]
  rw [h] at hrec
  simp only [Option.some.injEq, Prod.mk.injEq] at hrec
  obtain ⟨hr, hs, hip⟩ := hrec
  subst hs
  exact ⟨hr, rfl, rfl, rfl, rfl, rfl, rfl, hip⟩

/-- Concrete instance of the frame-effect theorem: the stray CNAME
datagram (sender of a different address type) is reported pending while
the state's buffer fields have become the datagram's. -/
theorem c10_stray_datagram_witness :
    (0 : Int) = 0 ∧ dnsCnameState.buffer = dnsCnameDatagram
    ∧ dnsCnameState.buffer_len = dnsCnameDatagram.length
    ∧ dnsCnameState.id = dnsStateSent.id
    ∧ dnsCnameState.type = dnsStateSent.type
    ∧ dnsCnameState.name = dnsStateSent.name
    ∧ dnsCnameState.name_len = dnsStateSent.name_len
    ∧ ([9, 9, 9, 9] : List Nat) = [9, 9, 9, 9] :=
  c10_stray_datagram_overwrites_buffer dnsStateSent [10, 0, 0, 1]
    dnsCnameDatagram { type := .other, port := 53, host := [10, 0, 0, 1] }
    [9, 9, 9, 9] 5 0 dnsCnameState [9, 9, 9, 9] (by decide) (by decide)

/-- Reading an appended list at an index just past a prefix of known
length. -/
lemma byteAt_append_add (l l' : List Nat) (n k : Nat) (hn : l.length = n) :
    byteAt (l ++ l') (n + k) = byteAt l' k := by
  rw [byteAt, List.getD_append_right l l' 0 (n + k) (by omega)]
  simp [byteAt, hn]

/-- Reading an appended list exactly at the prefix's length. -/
lemma byteAt_append_len (l l' : List Nat) (n : Nat) (hn : l.length = n) :
    byteAt (l ++ l') n = byteAt l' 0 := by
  simpa using byteAt_append_add l l' n 0 hn

/-- C9: every query the public entry point sends is built with QTYPE A
(never AAAA): the state records type A and the wire question trailer
carries the bytes 0,1; consequently for a type-A state the answer filter
only ever accepts a record whose RDATA spans exactly 4 bytes, and the
receive path's copy overwrites exactly the first 4 bytes of the caller's
ip buffer with the record's RDATA. -/
theorem c9_public_queries_are_type_A
    (s : MobileAdapterDns) (host : List Nat) (sendOk : Bool)
    (s2 : MobileAdapterDns) (dgram : List Nat)
    (h : (mobile_dns_query_send s host sendOk).1 = some (s2, dgram)) :
    s2.type = DNS_QTYPE_A
    ∧ DNS_QTYPE_A ≠ DNS_QTYPE_AAAA
    ∧ byteAt dgram (DNS_HEADER_SIZE + s2.name_len) = 0
    ∧ byteAt dgram (DNS_HEADER_SIZE + s2.name_len + 1) = 1
    ∧ (∀ t : MobileAdapterDns, t.type = DNS_QTYPE_A →
        ∀ off fuel a o, dns_get_answer t off fuel = some (.accept a o) →
          o = a + 4)
    ∧ (∀ ip t a, List.drop 4 (copyIp4 ip t a) = List.drop 4 ip
        ∧ List.take 4 (copyIp4 ip t a)
          = [byteAt t.buffer a, byteAt t.buffer (a + 1),
             byteAt t.buffer (a + 2), byteAt t.buffer (a + 3)]) := by
  cases hloop : dnsMakeNameLoop host [0] 0 with
  | none =>
    rw [mobile_dns_query_send, dns_make_name, hloop] at h
    simp at h
  | some out =>
    rw [mobile_dns_query_send, dns_make_name, hloop] at h
    cases sendOk with
    | false => simp at h
    | true =>
      replace h : some
          (dns_make_query { s with name := out, name_len := out.length }
            DNS_QTYPE_A,
          (dns_make_query { s with name := out, name_len := out.length }
            DNS_QTYPE_A).buffer)
          = some (s2, dgram) := h
      rw [Option.some.injEq, Prod.mk.injEq] at h
      obtain ⟨hs2, hdgram⟩ := h
      subst hs2
      subst hdgram
      refine ⟨rfl, by decide, ?_, ?_, ?_, ?_⟩
      · show byteAt _ (DNS_HEADER_SIZE + out.length) = 0
        simp only [dns_make_query, List.take_length]
        rw [byteAt_append_len _ _ (DNS_HEADER_SIZE + out.length)
          (by simp [DNS_HEADER_SIZE]; omega)]
        rfl
      · show byteAt _ (DNS_HEADER_SIZE + out.length + 1) = 1
        simp only [dns_make_query, List.take_length]
        rw [byteAt_append_add _ _ (DNS_HEADER_SIZE + out.length) 1
          (by simp [DNS_HEADER_SIZE]; omega)]
        rfl
      · intro t ht off fuel a o hga
        cases hc : dns_compare_name t off fuel with
        | none => simp [dns_get_answer, hc] at hga
        | some p =>
          rcases p with ⟨cmp, off1⟩
          simp only [dns_get_answer, hc] at hga
          split_ifs at hga with h1 h2 h3 h4 h5 h6 h7
          all_goals
            first
            | (simp only [Option.some.injEq, AnswerResult.accept.injEq] at hga
               obtain ⟨ha, ho⟩ := hga
               have h6' : byteAt t.buffer (off1 + 8) * 256
                   + byteAt t.buffer (off1 + 9) = 4 := by
                 by_contra hne
                 exact h6 ⟨ht, hne⟩
               omega)
            | simp at hga
      · intro ip t a
        constructor <;> simp [copyIp4]

/-- Concrete instance of the query-type theorem: sending the hostname "a"
from the fresh state produces exactly `dnsStateSent`, whose type is A. -/
theorem c9_public_queries_witness :
    (mobile_dns_query_send dnsState0 [97] true).1
        = some (dnsStateSent, dnsStateSent.buffer)
    ∧ dnsStateSent.type = DNS_QTYPE_A := by
  constructor
  · decide
  · exact (c9_public_queries_are_type_A dnsState0 [97] true dnsStateSent
      dnsStateSent.buffer (by decide)).1
